import Mathlib

/-!
Verification development for the hidden-navigation link-discovery engine
(the `explore-navigation` tool in `exploreNavigation.execute`): a shallow
embedding of `collectLinks`, `diffLinks` and the discovery-phase
orchestrator, with the browser environment (Playwright calls) represented
as an explicit record of per-call outcomes.
-/

set_option maxRecDepth 80000

namespace MaSteel

/-- JavaScript `s.trim()`: strip leading and trailing whitespace. -/
def jsTrim (s : String) : String :=
  String.mk (((s.toList.dropWhile Char.isWhitespace).reverse.dropWhile
    Char.isWhitespace).reverse)

/-- JavaScript `s.startsWith(p)`. -/
def jsStartsWith (s p : String) : Bool :=
  p.toList.isPrefixOf s.toList

/-- JavaScript `s.trim().replace(/\s+/g, " ")` applied inside the page
evaluation callbacks: here only the `replace` part, collapsing each run of
whitespace to a single space (applied after `trim`). -/
def collapseWs (s : String) : String :=
  String.mk (s.toList.foldl
    (fun (acc : List Char × Bool) c =>
      if c.isWhitespace then
        (if acc.2 then acc.1 else acc.1 ++ [' '], true)
      else (acc.1 ++ [c], false))
    ([], false)).1

/-- JavaScript `xs.slice(0, e)` on arrays: a negative end index counts from
the end of the array (`max(length + e, 0)`), a non-negative one truncates. -/
def jsSlice (xs : List α) (e : Int) : List α :=
  if e < 0 then xs.take ((xs.length + e).toNat) else xs.take e.toNat

/-- `interface LinkInfo { url: string; text: string }`. -/
structure LinkInfo where
  url : String
  text : String
deriving DecidableEq

/-- `interface Section { label: string; links: LinkInfo[] }`. -/
structure Section where
  label : String
  links : List LinkInfo
deriving DecidableEq

/-- The value returned by `exploreNavigation.execute`:
`{ url, totalLinksFound, sections, errors }`. -/
structure DiscoveryReport where
  url : String
  totalLinksFound : Int
  sections : List Section
  errors : List String
deriving DecidableEq

/-- One anchor element as seen by the in-page evaluation callbacks:
`a.getAttribute("href")` (null when absent) and `a.textContent`
(null possible). -/
structure DomAnchor where
  href : Option String
  text : Option String
deriving DecidableEq

/-- The mapping performed inside every `page.evaluate` callback:
`href: (a.getAttribute("href")) || ""` and
`text: ((a.textContent) || "").trim().replace(/\s+/g, " ")`. -/
def extractAnchor (a : DomAnchor) : String × String :=
  (a.href.getD "", collapseWs (jsTrim (a.text.getD "")))

/-- The href filter that appears verbatim at the top of every collection
loop: `href.startsWith("javascript:") || href.startsWith("mailto:") ||
href.startsWith("tel:") || href === "#"`. -/
def badHref (href : String) : Bool :=
  jsStartsWith href "javascript:" || jsStartsWith href "mailto:" ||
    jsStartsWith href "tel:" || href == "#"

/-- A JavaScript `Map<string, LinkInfo>` as an insertion-ordered
association list. -/
abbrev LinkMap := List (String × LinkInfo)

/-- `map.has(k)`. -/
def hasKey (m : LinkMap) (k : String) : Bool :=
  m.any (fun e => e.1 == k)

/-- `Array.from(map.values())` in insertion order. -/
def values (m : LinkMap) : List LinkInfo :=
  m.map (fun e => e.2)

/-- The collection loop shared by `collectLinks` (lines 32-42) and the
primary-nav scan (lines 139-147): filter non-navigable hrefs, resolve the
rest against the base URL (a failing resolution models the `new URL`
constructor throwing, silently skipped), insert first-seen entries with the
text truncated to 120 characters. `resolve` stands for the URL constructor
of the host platform. -/
def addAnchors (resolve : String → String → Option String) (base : String) :
    LinkMap → List DomAnchor → LinkMap
  | m, [] => m
  | m, a :: rest =>
    let e := extractAnchor a
    let m' :=
      if badHref e.1 then m
      else
        match resolve e.1 base with
        | none => m
        | some resolved =>
          if hasKey m resolved then m
          else m ++ [(resolved, ⟨resolved, e.2.take 120⟩)]
    addAnchors resolve base m' rest

/-- `collectLinks(page, baseUrl)`, lines 22-44: extract all `a[href]`
anchors of the current DOM state (supplied here as the anchor list) and
normalize them into a `Map<string, LinkInfo>`. -/
def collectLinks (resolve : String → String → Option String) (base : String)
    (anchors : List DomAnchor) : LinkMap :=
  addAnchors resolve base [] anchors

/-- The iteration of `diffLinks` over the entries of `after`, carrying the
`newLinks` accumulator. -/
def diffGo (before : LinkMap) : LinkMap → List LinkInfo → List LinkInfo
  | [], acc => acc
  | e :: rest, acc =>
    diffGo before rest (if hasKey before e.1 then acc else acc ++ [e.2])

/-- `diffLinks(before, after)`, lines 49-57: links present in `after`
that were not in `before`, in the iteration order of `after`. -/
def diffLinks (before after : LinkMap) : List LinkInfo :=
  diffGo before after []

/-- The insertion loop of the footer scan, lines 273-281: same shape as
`addAnchors` but an entry is inserted only when its resolved URL is in
neither the footer map built so far nor the primary-nav map. -/
def addFooterAnchors (resolve : String → String → Option String) (base : String)
    (primaryNav : LinkMap) : LinkMap → List DomAnchor → LinkMap
  | m, [] => m
  | m, a :: rest =>
    let e := extractAnchor a
    let m' :=
      if badHref e.1 then m
      else
        match resolve e.1 base with
        | none => m
        | some resolved =>
          if !hasKey m resolved && !hasKey primaryNav resolved then
            m ++ [(resolved, ⟨resolved, e.2.take 120⟩)]
          else m
    addFooterAnchors resolve base primaryNav m' rest

/-- `navSelectors`, lines 118-126. -/
def navSelectors : List String :=
  ["nav a", "[role=\"navigation\"] a", "header a", "header ul a",
   ".navbar a", ".nav a", "[class*=\"nav\"] a"]

/-- `hoverTargetSelectors`, lines 158-167. -/
def hoverTargetSelectors : List String :=
  ["nav > ul > li", "nav > div > ul > li", "[role=\"navigation\"] > ul > li",
   "header nav li",
   ".navbar li:has(ul), .navbar li:has([class*=\"dropdown\"])",
   "[class*=\"nav\"] > ul > li", "nav button", "header button"]

/-- `hamburgerSelectors`, lines 206-218. -/
def hamburgerSelectors : List String :=
  ["button[aria-label*=\"menu\" i]", "button[aria-label*=\"Menu\" i]",
   "button[aria-label*=\"navigation\" i]", "[class*=\"hamburger\"]",
   "[class*=\"menu-toggle\"]", "[class*=\"mobile-menu\"]",
   "[class*=\"nav-toggle\"]", "button:has(.hamburger)",
   "button[class*=\"burger\"]", "[aria-controls*=\"nav\"]",
   "[aria-controls*=\"menu\"]"]

/-- `footerSelectors`, line 261. -/
def footerSelectors : List String :=
  ["footer a", "[role=\"contentinfo\"] a", "[class*=\"footer\"] a"]

/-- Outcome of one hover attempt (lines 178-197) on one candidate element:
the `textContent` result (null possible) and the two raw snapshots
taken around the hover.  A throwing attempt (element detached, hover or
snapshot timeout) is represented by `none` at the use site: the inner
catch swallows it and the loop moves to the next candidate. -/
structure HoverItem where
  textContent : Option String
  snapBefore : List DomAnchor
  snapAfter : List DomAnchor

/-- Outcome of one hamburger-selector iteration (lines 220-252).
`fail`: a throw before the click succeeded (locator, `isVisible`, the
before snapshot, or the click itself) — caught, next selector.
`notVisible`: `isVisible` returned false — `continue`.
`clickedNoSnap`: the click succeeded but the settle wait or the after
snapshot threw — caught, next selector (the toggle stays engaged).
`engaged`: the full iteration ran: diff the snapshots, then a best-effort
close click whose failure flag is recorded but ignored, then `break`. -/
inductive HamOutcome where
  | fail
  | notVisible
  | clickedNoSnap
  | engaged (snapBefore snapAfter : List DomAnchor) (closeThrew : Bool)

/-- One discovery run's browser environment: the outcome of every external
Playwright call the orchestrator can make, keyed by the selector it is made
with.  `getPage` is the `await getPage()` at line 101, which runs before
the try/catch, so `some msg` means that rejection propagates to the
caller.  `goto` carries the thrown message or the HTTP status of the
response (the code never inspects the status).  `close` is the
`await page.close()` in the `finally` at line 304: `some msg` means the
close rejected, which by JavaScript finally semantics replaces whatever
the function was about to return.  The cookie-banner dismisser touches
only the page, never the report state, so it needs no field here. -/
structure Env where
  resolve : String → String → Option String
  getPage : Option String
  goto : Except String Int
  baseline : Except String (List DomAnchor)
  navQuery : String → Option (List DomAnchor)
  hoverQuery : String → Option (List (Option HoverItem))
  hamburger : String → HamOutcome
  scroll : Option String
  footerQuery : String → Option (List DomAnchor)
  close : Option String

/-- The mutable run state threaded through the phases:
`sections`, `totalLinksFound`, `errors`. -/
structure RunSt where
  sections : List Section
  total : Int
  errors : List String
deriving DecidableEq

/-- `sections.push({label, links}); totalLinksFound += links.length;` -/
def pushLinks (st : RunSt) (label : String) (ls : List LinkInfo) : RunSt :=
  { st with sections := st.sections ++ [⟨label, ls⟩],
            total := st.total + ls.length }

/-- The iteration of the step 2 collection over the nav selectors:
a selector whose evaluation throws is skipped. -/
def navScan (env : Env) (base : String) : LinkMap → List String → LinkMap
  | m, [] => m
  | m, sel :: rest =>
    navScan env base
      (match env.navQuery sel with
       | none => m
       | some anchors => addAnchors env.resolve base m anchors)
      rest

/-- Step 2 collection, lines 128-149: one shared map filled across all
seven nav selectors in order. -/
def primaryNavLinksOf (env : Env) (base : String) : LinkMap :=
  navScan env base [] navSelectors

/-- Step 2 emission, lines 151-155: if the merged map is non-empty, emit
one section `"Primary Nav"` truncated by `.slice(0, maxLinks)`. -/
def primaryPhase (pn : LinkMap) (maxLinks : Int) (st : RunSt) : RunSt :=
  if pn.length > 0 then pushLinks st "Primary Nav" (jsSlice (values pn) maxLinks)
  else st

/-- Line 180: `(await item.textContent())?.trim().replace(/\s+/g, " ")
.slice(0, 50) || "Item " + i`. -/
def hoverLabel (i : Nat) (tc : Option String) : String :=
  match tc with
  | none => "Item " ++ toString i
  | some s =>
    let t := (collapseWs (jsTrim s)).take 50
    if t = "" then "Item " ++ toString i else t

/-- The body of one hover attempt (the inner try, lines 178-197): a
throwing attempt (`none`) contributes nothing; otherwise diff the
snapshots and, if non-empty, emit a `"Dropdown: ..."` section truncated to
the remaining budget. -/
def hoverItemStep (resolve : String → String → Option String) (base : String)
    (maxLinks : Int) (i : Nat) (it : Option HoverItem) (st : RunSt) : RunSt :=
  match it with
  | none => st
  | some item =>
    let revealed := diffLinks (collectLinks resolve base item.snapBefore)
      (collectLinks resolve base item.snapAfter)
    if revealed.length > 0 then
      pushLinks st ("Dropdown: " ++ hoverLabel i item.textContent)
        (jsSlice revealed (maxLinks - st.total))
    else st

/-- Step 3 inner loop, lines 175-198: iterate the candidate elements of
one hover scope, breaking as soon as the budget is reached. -/
def hoverItems (resolve : String → String → Option String) (base : String)
    (maxLinks : Int) : Nat → List (Option HoverItem) → RunSt → RunSt
  | _i, [], st => st
  | i, it :: rest, st =>
    if st.total ≥ maxLinks then st
    else hoverItems resolve base maxLinks (i + 1) rest
      (hoverItemStep resolve base maxLinks i it st)

/-- Step 3 outer loop, lines 169-203: per hover scope, a throwing
`locator`/`count` (`none`) skips the scope and still reaches the trailing
budget check; `count === 0` continues directly to the next scope (the
source `continue` skips the trailing check); otherwise iterate the first
`min(count, 15)` candidates, then break once the budget is reached. -/
def hoverPhase (env : Env) (base : String) (maxLinks : Int) :
    List String → RunSt → RunSt
  | [], st => st
  | sel :: rest, st =>
    match env.hoverQuery sel with
    | none =>
      if st.total ≥ maxLinks then st else hoverPhase env base maxLinks rest st
    | some items =>
      if items.length = 0 then hoverPhase env base maxLinks rest st
      else
        let st' := hoverItems env.resolve base maxLinks 0 (items.take 15) st
        if st'.total ≥ maxLinks then st' else hoverPhase env base maxLinks rest st'

/-- Step 4, lines 220-252: break at the top of each iteration once the
budget is reached; a `fail` / `clickedNoSnap` outcome is caught and the
next selector is tried; `notVisible` continues; a completed engagement
diffs its snapshots, emits `"Mobile/Hamburger Menu"` when non-empty,
ignores the close-click outcome and breaks. -/
def hamburgerPhase (env : Env) (base : String) (maxLinks : Int) :
    List String → RunSt → RunSt
  | [], st => st
  | sel :: rest, st =>
    if st.total ≥ maxLinks then st
    else
      match env.hamburger sel with
      | .fail => hamburgerPhase env base maxLinks rest st
      | .notVisible => hamburgerPhase env base maxLinks rest st
      | .clickedNoSnap => hamburgerPhase env base maxLinks rest st
      | .engaged sb sa _closeThrew =>
        let revealed := diffLinks (collectLinks env.resolve base sb)
          (collectLinks env.resolve base sa)
        if revealed.length > 0 then
          pushLinks st "Mobile/Hamburger Menu"
            (jsSlice revealed (maxLinks - st.total))
        else st

/-- The iteration of the step 5 collection over the footer selectors:
a selector whose evaluation throws is skipped. -/
def footerScan (env : Env) (base : String) (primaryNav : LinkMap) :
    LinkMap → List String → LinkMap
  | m, [] => m
  | m, sel :: rest =>
    footerScan env base primaryNav
      (match env.footerQuery sel with
       | none => m
       | some anchors => addFooterAnchors env.resolve base primaryNav m anchors)
      rest

/-- Step 5 collection, lines 260-283: one map filled across the three
footer selectors, excluding URLs already in the primary-nav map. -/
def footerMapOf (env : Env) (base : String) (primaryNav : LinkMap) : LinkMap :=
  footerScan env base primaryNav [] footerSelectors

/-- Step 5, lines 255-294: run only while `totalLinksFound < maxLinks`; a
throwing scroll (or settle wait) records `"Footer scroll failed: ..."`
and skips the collection; otherwise emit `"Footer"` when the map is
non-empty, truncated to the remaining budget. -/
def footerPhase (env : Env) (base : String) (maxLinks : Int)
    (primaryNav : LinkMap) (st : RunSt) : RunSt :=
  if st.total < maxLinks then
    match env.scroll with
    | some msg =>
      { st with errors := st.errors ++ ["Footer scroll failed: " ++ msg] }
    | none =>
      let fl := footerMapOf env base primaryNav
      if fl.length > 0 then
        pushLinks st "Footer" (jsSlice (values fl) (maxLinks - st.total))
      else st
  else st

/-- Steps 2-5 of the try body, starting from the empty run state. -/
def runPhases (env : Env) (base : String) (maxLinks : Int) : RunSt :=
  let pn := primaryNavLinksOf env base
  footerPhase env base maxLinks pn
    (hamburgerPhase env base maxLinks hamburgerSelectors
      (hoverPhase env base maxLinks hoverTargetSelectors
        (primaryPhase pn maxLinks ⟨[], 0, []⟩)))

/-- The try body of `execute`, lines 106-297: the only steps whose throw
reaches the outer catch are the navigation (`page.goto`) and the baseline
snapshot — everything later is caught at phase or candidate scope.  The
response status and the baseline map are never used afterwards. -/
def tryBody (env : Env) (base : String) (maxLinks : Int) : Except String RunSt :=
  match env.goto with
  | .error msg => .error msg
  | .ok _status =>
    match env.baseline with
    | .error msg => .error msg
    | .ok _anchors => .ok (runPhases env base maxLinks)

/-- The try/catch of `exploreNavigation.execute`, lines 106-302: the catch
(lines 298-302) returns the accumulated
`{url, totalLinksFound, sections, errors}` with the thrown message
appended; at every throw point that can reach it the accumulated state is
still the initial one.  This portion always produces a report; the steps
of the enclosing function that can still throw (`getPage` before the try,
`page.close()` in the finally) are modelled by `executeCall` below. -/
def execute (env : Env) (url : String) (maxLinks : Int) : DiscoveryReport :=
  match tryBody env url maxLinks with
  | .ok st => ⟨url, st.total, st.sections, st.errors⟩
  | .error msg => ⟨url, 0, [], [msg]⟩

/-- The whole of `exploreNavigation.execute`, lines 99-306, as observed by
the caller.  `await getPage()` at line 101 runs before the try/catch, so
its rejection propagates out.  The `finally` at lines 303-305 awaits
`page.close()` after the report (normal or from the catch) is ready; a
rejection there replaces the report with a thrown rejection, per
JavaScript finally semantics. -/
def executeCall (env : Env) (url : String) (maxLinks : Int) :
    Except String DiscoveryReport :=
  match env.getPage with
  | some msg => .error msg
  | none =>
    let report := execute env url maxLinks
    match env.close with
    | some msg => .error msg
    | none => .ok report

/-- The tool entry point applies the default budget:
`maxLinks: rawMaxLinks ?? DEFAULT_MAX_LINKS` with `DEFAULT_MAX_LINKS = 50`. -/
def executeTool (env : Env) (url : String) (rawMaxLinks : Option Int) :
    Except String DiscoveryReport :=
  executeCall env url (rawMaxLinks.getD 50)

/-- Observation function mirroring the traversal of `hamburgerPhase`:
the number of toggles actually clicked open during the phase.  A
`clickedNoSnap` iteration engaged its toggle and the loop continued; an
`engaged` iteration clicked once and broke. -/
def hamburgerEngagements (env : Env) (maxLinks : Int) :
    List String → RunSt → Nat
  | [], _st => 0
  | sel :: rest, st =>
    if st.total ≥ maxLinks then 0
    else
      match env.hamburger sel with
      | .fail => hamburgerEngagements env maxLinks rest st
      | .notVisible => hamburgerEngagements env maxLinks rest st
      | .clickedNoSnap => 1 + hamburgerEngagements env maxLinks rest st
      | .engaged _ _ _ => 1

/-- Observation function mirroring the traversal of `hamburgerPhase`:
the number of iterations that ran to completion (reached the `break`). -/
def hamburgerCompletions (env : Env) (maxLinks : Int) :
    List String → RunSt → Nat
  | [], _st => 0
  | sel :: rest, st =>
    if st.total ≥ maxLinks then 0
    else
      match env.hamburger sel with
      | .fail => hamburgerCompletions env maxLinks rest st
      | .notVisible => hamburgerCompletions env maxLinks rest st
      | .clickedNoSnap => hamburgerCompletions env maxLinks rest st
      | .engaged _ _ _ => 1

/-- Replace the recorded close-click failure flag of an `engaged` outcome;
used to state that the phase ignores that flag. -/
def setCloseFlag (b : Bool) : HamOutcome → HamOutcome
  | .engaged sb sa _ => .engaged sb sa b
  | o => o

/-- Models the WHATWG URL constructor (`new URL(href, base)` followed by
`.href`) on the href shapes exercised by the concrete runs in this file:
an empty href resolves to the base itself (with no fragment to strip), an
absolute http(s) href resolves to itself (already in normal form), and
every other shape is treated as failing to parse. -/
def resolveURL (href base : String) : Option String :=
  if href = "" then some base
  else if jsStartsWith href "http://" || jsStartsWith href "https://" then
    some href
  else none

/-! Concrete environments used to evaluate the engine on explicit runs. -/

/-- A page on which every query finds nothing, every toggle is invisible,
and navigation, scroll and all snapshots succeed. -/
def quietEnv : Env where
  resolve := resolveURL
  getPage := none
  goto := .ok 200
  baseline := .ok []
  navQuery := fun _ => some []
  hoverQuery := fun _ => some []
  hamburger := fun _ => .notVisible
  scroll := none
  footerQuery := fun _ => some []
  close := none

def aAbout : DomAnchor := ⟨some "https://example.com/about", some "About"⟩

def aX : DomAnchor := ⟨some "https://example.com/x", some "X"⟩

def aP1 : DomAnchor := ⟨some "https://example.com/p1", some "P1"⟩

def aP2 : DomAnchor := ⟨some "https://example.com/p2", some "P2"⟩

def aF1 : DomAnchor := ⟨some "https://example.com/f1", some "F1"⟩

def aF2 : DomAnchor := ⟨some "https://example.com/f2", some "F2"⟩

/-- Navigation succeeded but the response carried HTTP status 404; the nav
scope still holds one link. -/
def envStatus404 : Env :=
  { quietEnv with
    goto := .ok 404
    navQuery := fun sel => if sel = "nav a" then some [aAbout] else some [] }

/-- A page whose first hover scope reveals the link `aX`, and whose footer
holds the same `aX` again. -/
def envHoverFooterDup : Env :=
  { quietEnv with
    hoverQuery := fun sel =>
      if sel = "nav > ul > li" then some [some ⟨some "Products", [], [aX]⟩]
      else some []
    footerQuery := fun sel => if sel = "footer a" then some [aX] else some [] }

/-- The first toggle pattern is clicked but its after snapshot throws; the
second pattern then completes a full engagement. -/
def envTwoToggles : Env :=
  { quietEnv with
    hamburger := fun sel =>
      if sel = "button[aria-label*=\"menu\" i]" then .clickedNoSnap
      else if sel = "button[aria-label*=\"Menu\" i]" then .engaged [] [aX] false
      else .notVisible }

/-- A page with one qualifying primary-nav link. -/
def envOneNavLink : Env :=
  { quietEnv with
    navQuery := fun sel => if sel = "nav a" then some [aAbout] else some [] }

/-- Scenario E: the primary nav holds `p1, p2`; the footer holds four
links of which two (`p1, p2`) duplicate the primary nav. -/
def envFooterOverlap : Env :=
  { quietEnv with
    navQuery := fun sel => if sel = "nav a" then some [aP1, aP2] else some []
    footerQuery := fun sel =>
      if sel = "footer a" then some [aP1, aF1, aP2, aF2] else some [] }

/-- Navigation itself throws. -/
def envNavFail : Env :=
  { quietEnv with goto := .error "net::ERR_NAME_NOT_RESOLVED" }

/-- The discovery body completes with one section, but releasing the page
in the finally block rejects. -/
def envCloseFail : Env :=
  { quietEnv with
    navQuery := fun sel => if sel = "nav a" then some [aAbout] else some []
    close := some "page.close: Target closed" }

/-! Predicates used by the verification below. -/

/-- Well-formed link map: pairwise-distinct keys, and every entry's `url`
field equals its key. -/
def WFmap (m : LinkMap) : Prop :=
  (m.map Prod.fst).Pairwise (· ≠ ·) ∧ ∀ e ∈ m, e.2.url = e.1

/-- Sum of the link counts of the sections. -/
def sumLens (ss : List Section) : Int :=
  (ss.map (fun s => (s.links.length : Int))).sum

/-- Invariant maintained from the primary-nav emission on: the counter is
within `[0, maxLinks]` and equals the sum of the sections' link counts,
and every section is non-empty with pairwise-distinct urls. -/
structure Inv (maxLinks : Int) (st : RunSt) : Prop where
  nonneg : 0 ≤ st.total
  bound : st.total ≤ maxLinks
  sum : st.total = sumLens st.sections
  nonempty : ∀ s ∈ st.sections, s.links ≠ []
  distinct : ∀ s ∈ st.sections, (s.links.map LinkInfo.url).Pairwise (· ≠ ·)

/-- A budget-free invariant: within every emitted section the urls are
pairwise distinct, whatever the budget. -/
def SecOK (st : RunSt) : Prop :=
  ∀ s ∈ st.sections, (s.links.map LinkInfo.url).Pairwise (· ≠ ·)

/-! Basic lemmas about the map operations. -/

lemma hasKey_of_mem {m : LinkMap} {e : String × LinkInfo} (h : e ∈ m) :
    hasKey m e.1 = true := by
  simp only [hasKey, List.any_eq_true]
  exact ⟨e, h, by simp⟩

lemma hasKey_eq_false_iff {m : LinkMap} {k : String} :
    hasKey m k = false ↔ ∀ e ∈ m, e.1 ≠ k := by
  simp [hasKey, List.any_eq_false]

lemma diffGo_spec (before : LinkMap) :
    ∀ (after : LinkMap) (acc : List LinkInfo),
      diffGo before after acc
        = acc ++ (after.filter (fun e => !hasKey before e.1)).map
            (fun e => e.2) := by
  intro after
  induction after with
  | nil => intro acc; simp [diffGo]
  | cons e rest ih =>
    intro acc
    cases h : hasKey before e.1 <;> simp [diffGo, h, ih]

lemma diffLinks_spec (before after : LinkMap) :
    diffLinks before after
      = (after.filter (fun e => !hasKey before e.1)).map (fun e => e.2) := by
  simpa using diffGo_spec before after []

lemma WFmap_nil : WFmap [] := by
  constructor <;> simp

lemma WFmap_snoc {m : LinkMap} {k t : String} (h : WFmap m)
    (hk : hasKey m k = false) : WFmap (m ++ [(k, ⟨k, t⟩)]) := by
  constructor
  · rw [List.map_append]
    refine List.pairwise_append.2 ⟨h.1, by simp, ?_⟩
    intro a ha b hb
    simp only [List.map_cons, List.map_nil, List.mem_singleton] at hb
    subst hb
    obtain ⟨e, he, rfl⟩ := List.mem_map.1 ha
    exact hasKey_eq_false_iff.1 hk e he
  · intro e he
    rcases List.mem_append.1 he with h1 | h1
    · exact h.2 e h1
    · simp only [List.mem_singleton] at h1
      subst h1
      rfl

lemma WFmap_addAnchors {r : String → String → Option String} {b : String} :
    ∀ {xs : List DomAnchor} {m : LinkMap}, WFmap m →
      WFmap (addAnchors r b m xs) := by
  intro xs
  induction xs with
  | nil => intro m h; simpa [addAnchors] using h
  | cons a rest ih =>
    intro m h
    rw [addAnchors]
    apply ih
    dsimp only
    split
    · exact h
    · split
      · exact h
      · split
        · exact h
        · next hk =>
            exact WFmap_snoc h (by revert hk; cases hasKey m _ <;> simp)

lemma WFmap_addFooterAnchors {r : String → String → Option String} {b : String}
    {pn : LinkMap} :
    ∀ {xs : List DomAnchor} {m : LinkMap}, WFmap m →
      WFmap (addFooterAnchors r b pn m xs) := by
  intro xs
  induction xs with
  | nil => intro m h; simpa [addFooterAnchors] using h
  | cons a rest ih =>
    intro m h
    rw [addFooterAnchors]
    apply ih
    dsimp only
    split
    · exact h
    · split
      · exact h
      · split
        · next hk =>
            refine WFmap_snoc h ?_
            simp only [Bool.and_eq_true, Bool.not_eq_true'] at hk
            exact hk.1
        · exact h

lemma WFmap_collectLinks {r : String → String → Option String} {b : String}
    {xs : List DomAnchor} : WFmap (collectLinks r b xs) :=
  WFmap_addAnchors WFmap_nil

lemma WFmap_navScan {env : Env} {base : String} :
    ∀ {sels : List String} {m : LinkMap}, WFmap m →
      WFmap (navScan env base m sels) := by
  intro sels
  induction sels with
  | nil => intro m h; simpa [navScan] using h
  | cons sel rest ih =>
    intro m h
    rw [navScan]
    apply ih
    cases env.navQuery sel with
    | none => exact h
    | some anchors => exact WFmap_addAnchors h

lemma WFmap_primaryNavLinksOf {env : Env} {base : String} :
    WFmap (primaryNavLinksOf env base) :=
  WFmap_navScan WFmap_nil

lemma WFmap_footerScan {env : Env} {base : String} {pn : LinkMap} :
    ∀ {sels : List String} {m : LinkMap}, WFmap m →
      WFmap (footerScan env base pn m sels) := by
  intro sels
  induction sels with
  | nil => intro m h; simpa [footerScan] using h
  | cons sel rest ih =>
    intro m h
    rw [footerScan]
    apply ih
    cases env.footerQuery sel with
    | none => exact h
    | some anchors => exact WFmap_addFooterAnchors h

lemma WFmap_footerMapOf {env : Env} {base : String} {pn : LinkMap} :
    WFmap (footerMapOf env base pn) :=
  WFmap_footerScan WFmap_nil

/-- The values of a well-formed map carry its keys as urls, in order. -/
lemma values_urls {m : LinkMap} (h : WFmap m) :
    (values m).map LinkInfo.url = m.map Prod.fst := by
  rw [values, List.map_map]
  exact List.map_congr_left fun e he => h.2 e he

lemma values_urls_pairwise {m : LinkMap} (h : WFmap m) :
    ((values m).map LinkInfo.url).Pairwise (· ≠ ·) := by
  rw [values_urls h]
  exact h.1

/-- The urls of a diff against a well-formed `after` map are pairwise
distinct. -/
lemma diffLinks_urls_pairwise {before after : LinkMap} (h : WFmap after) :
    ((diffLinks before after).map LinkInfo.url).Pairwise (· ≠ ·) := by
  rw [diffLinks_spec, List.map_map]
  have hsub : List.Sublist (after.filter (fun e => !hasKey before e.1)) after :=
    List.filter_sublist after
  have hcong : (after.filter (fun e => !hasKey before e.1)).map
        (LinkInfo.url ∘ fun e => e.2)
      = (after.filter (fun e => !hasKey before e.1)).map Prod.fst :=
    List.map_congr_left fun e he =>
      (h.2 e (hsub.mem he) : (LinkInfo.url ∘ fun e => e.2) e = e.1)
  rw [hcong]
  exact List.Pairwise.sublist (hsub.map Prod.fst) h.1

/-! Lemmas about `jsSlice`. -/

lemma jsSlice_of_nonneg {xs : List α} {e : Int} (h : 0 ≤ e) :
    jsSlice xs e = xs.take e.toNat := by
  simp [jsSlice, not_lt.2 h]

lemma jsSlice_length_le (xs : List α) (e : Int) (h : 0 ≤ e) :
    ((jsSlice xs e).length : Int) ≤ e := by
  rw [jsSlice_of_nonneg h]
  calc ((xs.take e.toNat).length : Int) ≤ (e.toNat : Int) := by
        exact_mod_cast List.length_take_le _ _
    _ = e := Int.toNat_of_nonneg h

lemma jsSlice_ne_nil {xs : List α} {e : Int} (he : 1 ≤ e) (hx : xs ≠ []) :
    jsSlice xs e ≠ [] := by
  rw [jsSlice_of_nonneg (by omega)]
  cases xs with
  | nil => exact absurd rfl hx
  | cons a l =>
    have : 1 ≤ e.toNat := by omega
    cases hn : e.toNat with
    | zero => omega
    | succ n => simp [hn, List.take]

lemma jsSlice_sublist {xs : List α} {e : Int} :
    List.Sublist (jsSlice xs e) xs := by
  unfold jsSlice
  split <;> exact List.take_sublist _ _

lemma jsSlice_map_pairwise {xs : List LinkInfo} {e : Int}
    (h : (xs.map LinkInfo.url).Pairwise (· ≠ ·)) :
    ((jsSlice xs e).map LinkInfo.url).Pairwise (· ≠ ·) :=
  List.Pairwise.sublist (jsSlice_sublist.map LinkInfo.url) h

/-! The run-state invariant. -/

lemma sumLens_nil : sumLens [] = 0 := rfl

lemma sumLens_append_one {ss : List Section} {s : Section} :
    sumLens (ss ++ [s]) = sumLens ss + s.links.length := by
  simp [sumLens]

lemma Inv.push_links {maxLinks : Int} {st : RunSt} {label : String}
    {ls : List LinkInfo} (h : Inv maxLinks st)
    (hlen : st.total + ls.length ≤ maxLinks) (hne : ls ≠ [])
    (hdist : (ls.map LinkInfo.url).Pairwise (· ≠ ·)) :
    Inv maxLinks (pushLinks st label ls) := by
  constructor
  · have := h.nonneg
    simp only [pushLinks]
    omega
  · exact hlen
  · simp only [pushLinks, sumLens_append_one, ← h.sum]
  · intro s hs
    rcases List.mem_append.1 hs with h1 | h1
    · exact h.nonempty s h1
    · simp only [List.mem_singleton] at h1
      subst h1
      exact hne
  · intro s hs
    rcases List.mem_append.1 hs with h1 | h1
    · exact h.distinct s h1
    · simp only [List.mem_singleton] at h1
      subst h1
      exact hdist

lemma Inv.initial {maxLinks : Int} (h : 0 ≤ maxLinks) :
    Inv maxLinks ⟨[], 0, []⟩ :=
  ⟨le_refl 0, h, rfl, by simp, by simp⟩

lemma primaryPhase_inv {pn : LinkMap} {maxLinks : Int} (hwf : WFmap pn)
    (hmax : 1 ≤ maxLinks) :
    Inv maxLinks (primaryPhase pn maxLinks ⟨[], 0, []⟩) := by
  unfold primaryPhase
  split
  · next hlen =>
      apply (Inv.initial (by omega)).push_links
      · have := jsSlice_length_le (values pn) maxLinks (by omega)
        simpa using this
      · refine jsSlice_ne_nil hmax ?_
        have : (values pn).length = pn.length := by simp [values]
        exact List.ne_nil_of_length_pos (by omega)
      · exact jsSlice_map_pairwise (values_urls_pairwise hwf)
  · exact Inv.initial (by omega)

lemma hoverItems_inv (r : String → String → Option String) (b : String)
    {maxLinks : Int} :
    ∀ (items : List (Option HoverItem)) (i : Nat) {st : RunSt},
      Inv maxLinks st → Inv maxLinks (hoverItems r b maxLinks i items st) := by
  intro items
  induction items with
  | nil => intro i st h; simpa [hoverItems] using h
  | cons it rest ih =>
    intro i st h
    rw [hoverItems]
    by_cases hge : st.total ≥ maxLinks
    · simpa [hge] using h
    · simp only [if_neg hge]
      apply ih
      cases it with
      | none => exact h
      | some item =>
        unfold hoverItemStep
        dsimp only
        split
        · next hrev =>
            apply h.push_links
            · have h1 : (0:Int) ≤ maxLinks - st.total := by omega
              have h2 := jsSlice_length_le
                (diffLinks (collectLinks r b item.snapBefore)
                  (collectLinks r b item.snapAfter))
                (maxLinks - st.total) h1
              omega
            · exact jsSlice_ne_nil (by omega)
                (List.ne_nil_of_length_pos hrev)
            · exact jsSlice_map_pairwise
                (diffLinks_urls_pairwise WFmap_collectLinks)
        · exact h

lemma hoverPhase_inv {env : Env} {b : String} {maxLinks : Int} :
    ∀ (sels : List String) {st : RunSt},
      Inv maxLinks st → Inv maxLinks (hoverPhase env b maxLinks sels st) := by
  intro sels
  induction sels with
  | nil => intro st h; simpa [hoverPhase] using h
  | cons sel rest ih =>
    intro st h
    rw [hoverPhase]
    cases env.hoverQuery sel with
    | none =>
      dsimp only
      split
      · exact h
      · exact ih h
    | some items =>
      dsimp only
      split
      · exact ih h
      · have h' := hoverItems_inv env.resolve b (items.take 15) 0 h
        split
        · exact h'
        · exact ih h'

lemma hamburgerPhase_inv {env : Env} {b : String} {maxLinks : Int} :
    ∀ (sels : List String) {st : RunSt},
      Inv maxLinks st → Inv maxLinks (hamburgerPhase env b maxLinks sels st) := by
  intro sels
  induction sels with
  | nil => intro st h; simpa [hamburgerPhase] using h
  | cons sel rest ih =>
    intro st h
    rw [hamburgerPhase]
    by_cases hge : st.total ≥ maxLinks
    · simpa [hge] using h
    · simp only [if_neg hge]
      cases env.hamburger sel with
      | fail => exact ih h
      | notVisible => exact ih h
      | clickedNoSnap => exact ih h
      | engaged sb sa c =>
        dsimp only
        split
        · next hrev =>
            apply h.push_links
            · have h1 : (0:Int) ≤ maxLinks - st.total := by omega
              have h2 := jsSlice_length_le
                (diffLinks (collectLinks env.resolve b sb)
                  (collectLinks env.resolve b sa))
                (maxLinks - st.total) h1
              omega
            · exact jsSlice_ne_nil (by omega)
                (List.ne_nil_of_length_pos hrev)
            · exact jsSlice_map_pairwise
                (diffLinks_urls_pairwise WFmap_collectLinks)
        · exact h

lemma footerPhase_inv {env : Env} {b : String} {maxLinks : Int}
    {pn : LinkMap} {st : RunSt} (h : Inv maxLinks st) :
    Inv maxLinks (footerPhase env b maxLinks pn st) := by
  unfold footerPhase
  by_cases hlt : st.total < maxLinks
  · simp only [if_pos hlt]
    cases env.scroll with
    | some msg => exact ⟨h.nonneg, h.bound, h.sum, h.nonempty, h.distinct⟩
    | none =>
      dsimp only
      split
      · next hlen =>
          apply h.push_links
          · have h1 : (0:Int) ≤ maxLinks - st.total := by omega
            have h2 := jsSlice_length_le
              (values (footerMapOf env b pn)) (maxLinks - st.total) h1
            omega
          · refine jsSlice_ne_nil (by omega) ?_
            have : (values (footerMapOf env b pn)).length
                = (footerMapOf env b pn).length := by simp [values]
            exact List.ne_nil_of_length_pos (by omega)
          · exact jsSlice_map_pairwise (values_urls_pairwise WFmap_footerMapOf)
      · exact h
  · simpa [if_neg hlt] using h

lemma runPhases_inv (env : Env) (url : String) (maxLinks : Int)
    (hmax : 1 ≤ maxLinks) : Inv maxLinks (runPhases env url maxLinks) := by
  unfold runPhases
  exact footerPhase_inv (hamburgerPhase_inv _
    (hoverPhase_inv _ (primaryPhase_inv WFmap_primaryNavLinksOf hmax)))

/-! Early-exit lemmas: an exhausted budget makes the later phases inert. -/

lemma hoverItems_stop {r : String → String → Option String} {b : String}
    {maxLinks : Int} {items : List (Option HoverItem)} {i : Nat} {st : RunSt}
    (h : maxLinks ≤ st.total) : hoverItems r b maxLinks i items st = st := by
  cases items with
  | nil => rw [hoverItems]
  | cons it rest => rw [hoverItems, if_pos h]

lemma hoverPhase_stop {env : Env} {b : String} {maxLinks : Int} :
    ∀ (sels : List String) {st : RunSt}, maxLinks ≤ st.total →
      hoverPhase env b maxLinks sels st = st := by
  intro sels
  induction sels with
  | nil => intro st _; rw [hoverPhase]
  | cons sel rest ih =>
    intro st h
    rw [hoverPhase]
    cases env.hoverQuery sel with
    | none => simp only [if_pos h]
    | some items =>
      dsimp only
      split
      · exact ih h
      · rw [hoverItems_stop h, if_pos h]

lemma hamburgerPhase_stop {env : Env} {b : String} {maxLinks : Int}
    {sels : List String} {st : RunSt} (h : maxLinks ≤ st.total) :
    hamburgerPhase env b maxLinks sels st = st := by
  cases sels with
  | nil => rw [hamburgerPhase]
  | cons sel rest => rw [hamburgerPhase, if_pos h]

lemma footerPhase_stop {env : Env} {b : String} {maxLinks : Int}
    {pn : LinkMap} {st : RunSt} (h : maxLinks ≤ st.total) :
    footerPhase env b maxLinks pn st = st := by
  unfold footerPhase
  rw [if_neg (by omega)]

lemma diffLinks_self (m : LinkMap) : diffLinks m m = [] := by
  rw [diffLinks_spec]
  have h : m.filter (fun e => !hasKey m e.1) = [] := by
    rw [List.filter_eq_nil_iff]
    intro e he
    simp [hasKey_of_mem he]
  rw [h]
  rfl

/-- Every entry of `addAnchors` comes from the original map or from an
anchor that passed the href filter and resolved to the entry's key. -/
lemma mem_addAnchors {r : String → String → Option String} {b : String} :
    ∀ {xs : List DomAnchor} {m : LinkMap} {u : String} {info : LinkInfo},
      (u, info) ∈ addAnchors r b m xs →
      (u, info) ∈ m ∨ ∃ a ∈ xs, badHref (extractAnchor a).1 = false ∧
        r (extractAnchor a).1 b = some u ∧
        info = ⟨u, (extractAnchor a).2.take 120⟩ := by
  intro xs
  induction xs with
  | nil =>
    intro m u info h
    left
    simpa [addAnchors] using h
  | cons a rest ih =>
    intro m u info h
    rw [addAnchors] at h
    rcases ih h with h1 | ⟨a', ha', hb', hr', hi'⟩
    · by_cases hb : badHref (extractAnchor a).1
      · rw [if_pos hb] at h1
        exact Or.inl h1
      · rw [if_neg hb] at h1
        cases hr : r (extractAnchor a).1 b with
        | none =>
          rw [hr] at h1
          exact Or.inl h1
        | some resolved =>
          rw [hr] at h1
          dsimp only at h1
          by_cases hk : hasKey m resolved
          · rw [if_pos hk] at h1
            exact Or.inl h1
          · rw [if_neg hk] at h1
            rcases List.mem_append.1 h1 with h2 | h2
            · exact Or.inl h2
            · simp only [List.mem_singleton, Prod.mk.injEq] at h2
              refine Or.inr ⟨a, List.mem_cons_self a rest, ?_, ?_, ?_⟩
              · exact Bool.of_not_eq_true hb
              · rw [hr, h2.1]
              · rw [h2.2, h2.1]
    · exact Or.inr ⟨a', List.mem_cons_of_mem a ha', hb', hr', hi'⟩

/-- Entries of the footer insertion loop never carry a key present in the
primary-nav map. -/
lemma addFooterAnchors_excl {r : String → String → Option String} {b : String}
    {pn : LinkMap} :
    ∀ {xs : List DomAnchor} {m : LinkMap},
      (∀ e ∈ m, hasKey pn e.1 = false) →
      ∀ e ∈ addFooterAnchors r b pn m xs, hasKey pn e.1 = false := by
  intro xs
  induction xs with
  | nil =>
    intro m hm e he
    exact hm e (by simpa [addFooterAnchors] using he)
  | cons a rest ih =>
    intro m hm e he
    rw [addFooterAnchors] at he
    refine ih ?_ e he
    dsimp only
    split
    · exact hm
    · split
      · exact hm
      · split
        · next hk =>
            simp only [Bool.and_eq_true, Bool.not_eq_true'] at hk
            intro e' he'
            rcases List.mem_append.1 he' with h1 | h1
            · exact hm e' h1
            · simp only [List.mem_singleton] at h1
              subst h1
              exact hk.2
        · exact hm

lemma footerScan_excl {env : Env} {b : String} {pn : LinkMap} :
    ∀ {sels : List String} {m : LinkMap},
      (∀ e ∈ m, hasKey pn e.1 = false) →
      ∀ e ∈ footerScan env b pn m sels, hasKey pn e.1 = false := by
  intro sels
  induction sels with
  | nil =>
    intro m hm e he
    exact hm e (by simpa [footerScan] using he)
  | cons sel rest ih =>
    intro m hm e he
    rw [footerScan] at he
    refine ih ?_ e he
    cases env.footerQuery sel with
    | none => exact hm
    | some anchors => exact addFooterAnchors_excl hm

lemma footerMapOf_excl {env : Env} {b : String} {pn : LinkMap} :
    ∀ e ∈ footerMapOf env b pn, hasKey pn e.1 = false :=
  footerScan_excl (by simp)

lemma SecOK.push_sec {st : RunSt} {label : String} {ls : List LinkInfo}
    (h : SecOK st) (hdist : (ls.map LinkInfo.url).Pairwise (· ≠ ·)) :
    SecOK (pushLinks st label ls) := by
  intro s hs
  simp only [pushLinks] at hs
  rcases List.mem_append.1 hs with h1 | h1
  · exact h s h1
  · simp only [List.mem_singleton] at h1
    subst h1
    exact hdist

lemma primaryPhase_secOK {pn : LinkMap} {maxLinks : Int} {st : RunSt}
    (h : SecOK st) (hwf : WFmap pn) : SecOK (primaryPhase pn maxLinks st) := by
  unfold primaryPhase
  split
  · exact h.push_sec (jsSlice_map_pairwise (values_urls_pairwise hwf))
  · exact h

lemma hoverItemStep_secOK {r : String → String → Option String} {b : String}
    {maxLinks : Int} {i : Nat} {it : Option HoverItem} {st : RunSt}
    (h : SecOK st) : SecOK (hoverItemStep r b maxLinks i it st) := by
  unfold hoverItemStep
  cases it with
  | none => exact h
  | some item =>
    dsimp only
    split
    · exact h.push_sec
        (jsSlice_map_pairwise (diffLinks_urls_pairwise WFmap_collectLinks))
    · exact h

lemma hoverItems_secOK (r : String → String → Option String) (b : String)
    {maxLinks : Int} :
    ∀ (items : List (Option HoverItem)) (i : Nat) {st : RunSt},
      SecOK st → SecOK (hoverItems r b maxLinks i items st) := by
  intro items
  induction items with
  | nil => intro i st h; simpa [hoverItems] using h
  | cons it rest ih =>
    intro i st h
    rw [hoverItems]
    split
    · exact h
    · exact ih _ (hoverItemStep_secOK h)

lemma hoverPhase_secOK {env : Env} {b : String} {maxLinks : Int} :
    ∀ (sels : List String) {st : RunSt},
      SecOK st → SecOK (hoverPhase env b maxLinks sels st) := by
  intro sels
  induction sels with
  | nil => intro st h; simpa [hoverPhase] using h
  | cons sel rest ih =>
    intro st h
    rw [hoverPhase]
    cases env.hoverQuery sel with
    | none =>
      dsimp only
      split
      · exact h
      · exact ih h
    | some items =>
      dsimp only
      split
      · exact ih h
      · split
        · exact hoverItems_secOK env.resolve b (items.take 15) 0 h
        · exact ih (hoverItems_secOK env.resolve b (items.take 15) 0 h)

lemma hamburgerPhase_secOK {env : Env} {b : String} {maxLinks : Int} :
    ∀ (sels : List String) {st : RunSt},
      SecOK st → SecOK (hamburgerPhase env b maxLinks sels st) := by
  intro sels
  induction sels with
  | nil => intro st h; simpa [hamburgerPhase] using h
  | cons sel rest ih =>
    intro st h
    rw [hamburgerPhase]
    split
    · exact h
    · cases env.hamburger sel with
      | fail => exact ih h
      | notVisible => exact ih h
      | clickedNoSnap => exact ih h
      | engaged sb sa c =>
        dsimp only
        split
        · exact h.push_sec
            (jsSlice_map_pairwise (diffLinks_urls_pairwise WFmap_collectLinks))
        · exact h

lemma footerPhase_secOK {env : Env} {b : String} {maxLinks : Int}
    {pn : LinkMap} {st : RunSt} (h : SecOK st) :
    SecOK (footerPhase env b maxLinks pn st) := by
  unfold footerPhase
  split
  · cases env.scroll with
    | some msg => exact h
    | none =>
      dsimp only
      split
      · exact h.push_sec (jsSlice_map_pairwise (values_urls_pairwise WFmap_footerMapOf))
      · exact h
  · exact h

lemma runPhases_secOK (env : Env) (url : String) (maxLinks : Int) :
    SecOK (runPhases env url maxLinks) := by
  unfold runPhases
  exact footerPhase_secOK (hamburgerPhase_secOK _
    (hoverPhase_secOK _ (primaryPhase_secOK (by simp [SecOK])
      WFmap_primaryNavLinksOf)))

/-! Lemmas about the hamburger observation counters. -/

lemma hamburgerCompletions_le_one (env : Env) (maxLinks : Int) :
    ∀ (sels : List String) (st : RunSt),
      hamburgerCompletions env maxLinks sels st ≤ 1 := by
  intro sels
  induction sels with
  | nil => intro st; simp [hamburgerCompletions]
  | cons sel rest ih =>
    intro st
    rw [hamburgerCompletions]
    split
    · omega
    · cases env.hamburger sel with
      | fail => exact ih st
      | notVisible => exact ih st
      | clickedNoSnap => exact ih st
      | engaged sb sa c => exact le_refl 1

/-- The result of the hamburger phase does not depend on the recorded
close-click failure flags. -/
lemma hamburgerPhase_ignores_close (env : Env) (b : String) (maxLinks : Int)
    (v : Bool) :
    ∀ (sels : List String) (st : RunSt),
      hamburgerPhase
          { env with hamburger := fun s => setCloseFlag v (env.hamburger s) }
          b maxLinks sels st
        = hamburgerPhase env b maxLinks sels st := by
  intro sels
  induction sels with
  | nil => intro st; rfl
  | cons sel rest ih =>
    intro st
    rw [hamburgerPhase, hamburgerPhase]
    split
    · rfl
    · cases henv : env.hamburger sel with
      | fail => simp only [henv, setCloseFlag]; exact ih st
      | notVisible => simp only [henv, setCloseFlag]; exact ih st
      | clickedNoSnap => simp only [henv, setCloseFlag]; exact ih st
      | engaged sb sa c => simp only [henv, setCloseFlag]

/-!
The claim theorems.
-/

/-- C1 (amended): if the initial navigation throws, the run aborts
immediately and returns a DiscoveryReport with `sections = []`,
`totalLinksFound = 0` and exactly one entry in `errors` carrying the
thrown message.  (The HTTP status of a successful navigation is never
inspected, so an HTTP error status alone does not abort the run; see the
counterexample.) -/
theorem claim_C1 (env : Env) (url : String) (maxLinks : Int) (msg : String)
    (h : env.goto = .error msg) :
    execute env url maxLinks = ⟨url, 0, [], [msg]⟩ := by
  unfold execute tryBody
  rw [h]

/-- Witness for C1 at a concrete failing navigation. -/
theorem claim_C1_witness :
    execute envNavFail "https://unreachable.example/" 50
      = ⟨"https://unreachable.example/", 0, [],
          ["net::ERR_NAME_NOT_RESOLVED"]⟩ :=
  claim_C1 envNavFail "https://unreachable.example/" 50
    "net::ERR_NAME_NOT_RESOLVED" rfl

/-- Counterexample to C1 as stated: navigation succeeds with HTTP status
404, yet the run is not aborted — the report carries one section, one
link, and no errors. -/
theorem claim_C1_counterexample :
    envStatus404.goto = Except.ok 404 ∧
    execute envStatus404 "https://example.com/" 50
      = ⟨"https://example.com/", 1,
          [⟨"Primary Nav", [⟨"https://example.com/about", "About"⟩]⟩], []⟩ :=
  ⟨rfl, by decide⟩

/-- C2: with a positive integer budget, `totalLinksFound` is non-negative,
never exceeds `maxLinks`, and equals the sum of the sections' link counts;
the per-phase `remaining = maxLinks - total` discipline is the `Inv`
invariant used in the proof. -/
theorem claim_C2 (env : Env) (url : String) (maxLinks : Int)
    (hmax : 1 ≤ maxLinks) :
    0 ≤ (execute env url maxLinks).totalLinksFound ∧
    (execute env url maxLinks).totalLinksFound ≤ maxLinks ∧
    (execute env url maxLinks).totalLinksFound
      = sumLens (execute env url maxLinks).sections := by
  unfold execute tryBody
  cases hg : env.goto with
  | error msg => exact ⟨le_refl 0, (by omega : (0:Int) ≤ maxLinks), rfl⟩
  | ok s0 =>
    cases hb : env.baseline with
    | error msg => exact ⟨le_refl 0, (by omega : (0:Int) ≤ maxLinks), rfl⟩
    | ok l =>
      obtain ⟨h1, h2, h3, _, _⟩ := runPhases_inv env url maxLinks hmax
      exact ⟨h1, h2, h3⟩

/-- Witness for C2 on the footer-overlap page with budget 50. -/
theorem claim_C2_witness :
    0 ≤ (execute envFooterOverlap "https://example.com/" 50).totalLinksFound ∧
    (execute envFooterOverlap "https://example.com/" 50).totalLinksFound ≤ 50 ∧
    (execute envFooterOverlap "https://example.com/" 50).totalLinksFound
      = sumLens (execute envFooterOverlap "https://example.com/" 50).sections :=
  claim_C2 envFooterOverlap "https://example.com/" 50 (by norm_num)

/-- C3 (amended): every Link produced by the collector comes from an
element whose href passed the exclusion filter (`javascript:`, `mailto:`,
`tel:`, exactly `#`) and resolved against the base URI to the Link's url;
the collector is a total function, so malformed hrefs are silently skipped
and never reported.  (An empty href is NOT excluded: it resolves to the
base URI itself and produces a Link; see the counterexample.) -/
theorem claim_C3 (r : String → String → Option String) (b : String)
    (xs : List DomAnchor) (u : String) (info : LinkInfo)
    (h : (u, info) ∈ collectLinks r b xs) :
    ∃ a ∈ xs, badHref (extractAnchor a).1 = false ∧
      r (extractAnchor a).1 b = some u ∧ info.url = u := by
  rcases mem_addAnchors h with h1 | ⟨a, ha, hb, hr, hi⟩
  · simp at h1
  · exact ⟨a, ha, hb, hr, by rw [hi]⟩

/-- Witness for C3 at a concrete well-formed anchor. -/
theorem claim_C3_witness :
    ∃ a ∈ [(⟨some "https://example.com/about", some "About"⟩ : DomAnchor)],
      badHref (extractAnchor a).1 = false ∧
      resolveURL (extractAnchor a).1 "https://example.com/"
        = some "https://example.com/about" ∧
      LinkInfo.url ⟨"https://example.com/about", "About"⟩
        = "https://example.com/about" :=
  claim_C3 resolveURL "https://example.com/"
    [⟨some "https://example.com/about", some "About"⟩]
    "https://example.com/about" ⟨"https://example.com/about", "About"⟩
    (by decide)

/-- Counterexample to C3 as stated: a single element whose href is the
empty string is not discarded — it resolves to the base URI (as the URL
constructor does) and yields a Link. -/
theorem claim_C3_counterexample :
    (∀ a ∈ [(⟨some "", some "Home"⟩ : DomAnchor)], (extractAnchor a).1 = "") ∧
    collectLinks resolveURL "https://example.com/" [⟨some "", some "Home"⟩]
      = [("https://example.com/", ⟨"https://example.com/", "Home"⟩)] :=
  ⟨by decide, by decide⟩

/-- C4: with a positive integer budget, every Section of the returned
report contains at least one Link. -/
theorem claim_C4 (env : Env) (url : String) (maxLinks : Int)
    (hmax : 1 ≤ maxLinks) :
    ∀ s ∈ (execute env url maxLinks).sections, s.links ≠ [] := by
  unfold execute tryBody
  cases hg : env.goto with
  | error msg => intro s hs; simp at hs
  | ok s0 =>
    cases hb : env.baseline with
    | error msg => intro s hs; simp at hs
    | ok l => exact (runPhases_inv env url maxLinks hmax).nonempty

/-- Witness for C4 at the concrete section emitted on a page with one
primary-nav link. -/
theorem claim_C4_witness :
    (⟨"Primary Nav", [⟨"https://example.com/about", "About"⟩]⟩ : Section).links
      ≠ [] :=
  claim_C4 envOneNavLink "https://example.com/" 50 (by norm_num)
    ⟨"Primary Nav", [⟨"https://example.com/about", "About"⟩]⟩ (by decide)

/-- C5: `diffLinks before after` is exactly the entries of `after` whose
key is absent from `before`, in `after`'s iteration order, carrying
`after`'s labels; in particular `diffLinks A A = []` for every `A`.
The function is pure, so determinism is inherent. -/
theorem claim_C5 (before after : LinkMap) :
    diffLinks before after
      = (after.filter (fun e => !hasKey before e.1)).map (fun e => e.2) ∧
    diffLinks before before = [] :=
  ⟨diffLinks_spec before after, diffLinks_self before⟩

/-- C6: the Footer Scan is skipped entirely once the budget is consumed;
when it runs with a working scroll and a non-empty footer map, it emits
exactly one `"Footer"` section holding the footer map's links truncated to
the remaining budget, and every footer-map entry's URL is absent from the
primary-nav map. -/
theorem claim_C6 (env : Env) (b : String) (maxLinks : Int) (pn : LinkMap)
    (st stFull : RunSt) (hfull : maxLinks ≤ stFull.total)
    (hlt : st.total < maxLinks) (hscroll : env.scroll = none)
    (hne : footerMapOf env b pn ≠ []) :
    footerPhase env b maxLinks pn stFull = stFull ∧
    footerPhase env b maxLinks pn st
      = pushLinks st "Footer"
          (jsSlice (values (footerMapOf env b pn)) (maxLinks - st.total)) ∧
    ∀ e ∈ footerMapOf env b pn, hasKey pn e.1 = false := by
  refine ⟨footerPhase_stop hfull, ?_, footerMapOf_excl⟩
  unfold footerPhase
  rw [if_pos hlt, hscroll]
  dsimp only
  rw [if_pos (List.length_pos.2 hne)]

/-- Witness for C6: Scenario E (four footer links, two of which duplicate
the primary nav) with two links of the budget already consumed, and a
separate fully-consumed state showing the skip. -/
theorem claim_C6_witness :
    footerPhase envFooterOverlap "https://example.com/" 50
        (primaryNavLinksOf envFooterOverlap "https://example.com/")
        ⟨[], 50, []⟩
      = ⟨[], 50, []⟩ ∧
    footerPhase envFooterOverlap "https://example.com/" 50
        (primaryNavLinksOf envFooterOverlap "https://example.com/")
        ⟨[], 2, []⟩
      = pushLinks ⟨[], 2, []⟩ "Footer"
          (jsSlice
            (values (footerMapOf envFooterOverlap "https://example.com/"
              (primaryNavLinksOf envFooterOverlap "https://example.com/")))
            (50 - 2)) ∧
    ∀ e ∈ footerMapOf envFooterOverlap "https://example.com/"
        (primaryNavLinksOf envFooterOverlap "https://example.com/"),
      hasKey (primaryNavLinksOf envFooterOverlap "https://example.com/") e.1
        = false :=
  claim_C6 envFooterOverlap "https://example.com/" 50
    (primaryNavLinksOf envFooterOverlap "https://example.com/")
    ⟨[], 2, []⟩ ⟨[], 50, []⟩ (by decide) (by decide) rfl (by decide)

/-- C7 (amended): provided the page acquisition at line 101 (which runs
before the try/catch) and the `page.close()` in the finally at line 304
both succeed, the caller receives a DiscoveryReport and never an
exception: either the run completes and the report carries the full
pipeline state, or the navigation or baseline snapshot threw and the
report carries the state accumulated up to the throw (necessarily empty,
since every later step is caught at phase or candidate scope) with the
message appended.  Without that proviso a rejection from `getPage()` or
from `page.close()` propagates to the caller; see the counterexample. -/
theorem claim_C7 (env : Env) (url : String) (maxLinks : Int)
    (hpage : env.getPage = none) (hclose : env.close = none) :
    executeCall env url maxLinks = .ok (execute env url maxLinks) ∧
    (execute env url maxLinks
        = ⟨url, (runPhases env url maxLinks).total,
            (runPhases env url maxLinks).sections,
            (runPhases env url maxLinks).errors⟩
     ∨ ∃ msg, (env.goto = .error msg ∨ env.baseline = .error msg) ∧
         execute env url maxLinks = ⟨url, 0, [], [msg]⟩) := by
  constructor
  · unfold executeCall
    rw [hpage, hclose]
  · unfold execute tryBody
    cases hg : env.goto with
    | error msg => exact Or.inr ⟨msg, Or.inl rfl, rfl⟩
    | ok s0 =>
      cases hb : env.baseline with
      | error msg => exact Or.inr ⟨msg, Or.inr rfl, rfl⟩
      | ok l => exact Or.inl rfl

/-- Witness for C7 on a concrete page whose acquisition and release
succeed. -/
theorem claim_C7_witness :
    executeCall envOneNavLink "https://example.com/" 50
        = .ok (execute envOneNavLink "https://example.com/" 50) ∧
    (execute envOneNavLink "https://example.com/" 50
        = ⟨"https://example.com/",
            (runPhases envOneNavLink "https://example.com/" 50).total,
            (runPhases envOneNavLink "https://example.com/" 50).sections,
            (runPhases envOneNavLink "https://example.com/" 50).errors⟩
     ∨ ∃ msg, (envOneNavLink.goto = .error msg
          ∨ envOneNavLink.baseline = .error msg) ∧
         execute envOneNavLink "https://example.com/" 50
           = ⟨"https://example.com/", 0, [], [msg]⟩) :=
  claim_C7 envOneNavLink "https://example.com/" 50 rfl rfl

/-- Counterexample to C7 as stated: the discovery body computes a full
one-section report, but the `page.close()` in the finally block rejects,
so the caller receives a thrown rejection instead of the report — an
exception propagates out and the accumulated section is lost. -/
theorem claim_C7_counterexample :
    executeCall envCloseFail "https://example.com/" 50
        = Except.error "page.close: Target closed" ∧
    execute envCloseFail "https://example.com/" 50
      = ⟨"https://example.com/", 1,
          [⟨"Primary Nav", [⟨"https://example.com/about", "About"⟩]⟩], []⟩ :=
  ⟨rfl, by decide⟩

/-- C8 (amended): at most one hamburger toggle iteration runs to
completion, and the phase result never depends on the recorded close-click
outcome; however a toggle whose click succeeded but whose later snapshot
threw does not end the phase, so further patterns are still tried and more
than one toggle may be clicked open (see the counterexample). -/
theorem claim_C8 (env : Env) (b : String) (maxLinks : Int)
    (sels : List String) (st : RunSt) (v : Bool) :
    hamburgerCompletions env maxLinks sels st ≤ 1 ∧
    hamburgerPhase
        { env with hamburger := fun s => setCloseFlag v (env.hamburger s) }
        b maxLinks sels st
      = hamburgerPhase env b maxLinks sels st :=
  ⟨hamburgerCompletions_le_one env maxLinks sels st,
   hamburgerPhase_ignores_close env b maxLinks v sels st⟩

/-- Counterexample to C8 as stated: the first toggle pattern is clicked
open but its after snapshot throws, the loop then tries the next pattern
and clicks a second toggle — two engagements in one run. -/
theorem claim_C8_counterexample :
    hamburgerEngagements envTwoToggles 50 hamburgerSelectors ⟨[], 0, []⟩
      = 2 := by
  decide

/-- C9: within any single section the urls are pairwise distinct, for
every run; but cross-phase deduplication exists only between Footer and
Primary Nav: on the concrete page below the same url appears both in a
hover-labeled section and in the Footer section, and both occurrences are
counted in `totalLinksFound`. -/
theorem claim_C9 :
    (∀ (env : Env) (url : String) (maxLinks : Int),
      ∀ s ∈ (execute env url maxLinks).sections,
        (s.links.map LinkInfo.url).Pairwise (· ≠ ·)) ∧
    execute envHoverFooterDup "https://example.com/" 50
      = ⟨"https://example.com/", 2,
          [⟨"Dropdown: Products", [⟨"https://example.com/x", "X"⟩]⟩,
           ⟨"Footer", [⟨"https://example.com/x", "X"⟩]⟩], []⟩ := by
  constructor
  · intro env url maxLinks
    unfold execute tryBody
    cases hg : env.goto with
    | error msg => intro s hs; simp at hs
    | ok s0 =>
      cases hb : env.baseline with
      | error msg => intro s hs; simp at hs
      | ok l => exact runPhases_secOK env url maxLinks
  · decide

/-- Witness for C9 discharging the membership hypothesis at the Footer
section of the concrete duplicate run. -/
theorem claim_C9_witness :
    (((⟨"Footer", [⟨"https://example.com/x", "X"⟩]⟩ : Section)).links.map
        LinkInfo.url).Pairwise (· ≠ ·) :=
  claim_C9.1 envHoverFooterDup "https://example.com/" 50
    ⟨"Footer", [⟨"https://example.com/x", "X"⟩]⟩ (by decide)

/-- C10: with `maxLinks = 0` on a page whose nav scopes yield at least one
qualifying link, the run returns a report whose only section is a
`"Primary Nav"` section with an empty link list, and
`totalLinksFound = 0` — so the no-empty-sections guarantee needs the
positive-budget precondition. -/
theorem claim_C10 (env : Env) (url : String) (s0 : Int) (l : List DomAnchor)
    (hg : env.goto = .ok s0) (hb : env.baseline = .ok l)
    (hpn : primaryNavLinksOf env url ≠ []) :
    execute env url 0 = ⟨url, 0, [⟨"Primary Nav", []⟩], []⟩ := by
  have h1 : primaryPhase (primaryNavLinksOf env url) 0 ⟨[], 0, []⟩
      = ⟨[⟨"Primary Nav", []⟩], 0, []⟩ := by
    unfold primaryPhase
    rw [if_pos (List.length_pos.2 hpn)]
    simp [pushLinks, jsSlice]
  have h2 : runPhases env url 0 = ⟨[⟨"Primary Nav", []⟩], 0, []⟩ := by
    unfold runPhases
    dsimp only
    rw [h1, hoverPhase_stop _ (le_refl 0), hamburgerPhase_stop (le_refl 0),
      footerPhase_stop (le_refl 0)]
  unfold execute tryBody
  rw [hg, hb]
  dsimp only
  rw [h2]

/-- Witness for C10 at the concrete one-nav-link page. -/
theorem claim_C10_witness :
    execute envOneNavLink "https://example.com/" 0
      = ⟨"https://example.com/", 0, [⟨"Primary Nav", []⟩], []⟩ :=
  claim_C10 envOneNavLink "https://example.com/" 200 [] rfl rfl (by decide)

end MaSteel
